import Mathlib

/-!
Verification of the prisma-dm migration orchestrator.

This file shallowly embeds the core of the repository:

* `readArgumentWithEnv` (datasource value resolution, `src/unnamed/part_000`),
* `updateGenerator` (temp-schema generator rewrite, `src/utils/tempMigrationSchema.ts`),
* `CLI.migrate` (the migration orchestrator, `src/services/CLI.ts`), modelled as a
  trace-producing function over an abstract external world (engine, history store,
  script runner), and
* the per-migration codegen body of `CLI.generate` (try/finally temp-file cleanup).

JavaScript semantics that matter here are modelled faithfully: `Array.prototype.slice`
with a possibly negative end index, `indexOf` returning `-1` on a miss, `.at(-1)` as
`getLast?`, `??`-defaulting of absent history rows, and string truthiness of the
optional target argument.
-/

/-! ## Schema expression model (subset of the @loancrate parser AST) -/

/-- A literal value in the schema DSL: a string, number or boolean. -/
inductive LiteralValue
  | str (s : String)
  | num (n : Int)
  | bool (b : Bool)
deriving DecidableEq, Repr

/-- A schema argument / expression, as classified by the parser's `kind` tag.
`functionCall` carries its dotted path and an optional argument list (the parser
may omit `args` entirely, hence the `Option`).  `otherExpr` stands for every
remaining expression kind (paths, arrays, ...), which the resolver rejects. -/
inductive SchemaExpr
  | literal (v : LiteralValue)
  | functionCall (path : List String) (args : Option (List SchemaExpr))
  | otherExpr

/-- Errors raised by datasource value resolution, one constructor per distinct
`throw new Error(...)` site reachable from `readArgumentWithEnv`. -/
inductive DsError
  | expectedStringLiteral
  | envArgCount
  | missingEnvVar (name : String)
  | unsupportedExpression
  | externalStringArgument
deriving DecidableEq, Repr

/-- The process environment: variable name to value, `none` when unset. -/
def EnvMap : Type := String → Option String

/-- The parser library's `readStringArgument`, modelled from its interface:
returns the string of a string literal, errors on anything else. -/
def readStringArgument : SchemaExpr → Except DsError String
  | SchemaExpr.literal (LiteralValue.str s) => Except.ok s
  | _ => Except.error DsError.externalStringArgument

/-- `readArgumentWithEnv` from `src/unnamed/part_000`: resolves a schema argument
for the datasource `provider`/`url` fields.  A string literal resolves verbatim;
a call `env(NAME)` with exactly one argument resolves to the environment value
(the code's `!envValue` check also rejects the empty string); every other form
errors. -/
def readArgumentWithEnv (env : EnvMap) (arg : SchemaExpr) : Except DsError String :=
  match arg with
  | SchemaExpr.literal v =>
      match v with
      | LiteralValue.str s => Except.ok s
      | _ => Except.error DsError.expectedStringLiteral
  | SchemaExpr.functionCall path args =>
      if String.intercalate "." path = "env" then
        match args with
        | some [a] =>
            match readStringArgument a with
            | Except.ok envName =>
                match env envName with
                | some v =>
                    if v = "" then Except.error (DsError.missingEnvVar envName)
                    else Except.ok v
                | none => Except.error (DsError.missingEnvVar envName)
            | Except.error e => Except.error e
        | _ => Except.error DsError.envArgCount
      else Except.error DsError.unsupportedExpression
  | SchemaExpr.otherExpr => Except.error DsError.unsupportedExpression

/-- Classifies the expression forms that reach the final `unsupportedExpression`
throw in `readArgumentWithEnv`: non-literal, non-`env`-call forms. -/
def unsupportedForm : SchemaExpr → Bool
  | SchemaExpr.literal _ => false
  | SchemaExpr.functionCall path _ => !(String.intercalate "." path = "env")
  | SchemaExpr.otherExpr => true

/-- Abbreviation for a well-formed single-argument `env(NAME)` call. -/
def envCall (name : String) : SchemaExpr :=
  SchemaExpr.functionCall ["env"] (some [SchemaExpr.literal (LiteralValue.str name)])

/-! ## Temp-schema generator rewrite (`src/utils/tempMigrationSchema.ts`) -/

/-- A member of a schema block: a `config` entry (`name = value`) or any other
member kind (comment blocks, fields, ...). -/
inductive BlockMember
  | config (name : String) (value : SchemaExpr)
  | otherMember

/-- A top-level schema declaration, as much of it as the rewrite inspects:
generator blocks and datasource blocks carry their members; everything else
(models, enums, ...) is opaque. -/
inductive Declaration
  | generator (members : List BlockMember)
  | datasource (members : List BlockMember)
  | otherDecl

/-- A parsed schema document: its list of top-level declarations. -/
structure PrismaSchema where
  declarations : List Declaration

/-- Error raised by `updateGenerator` when the schema does not contain exactly
one client generator block. -/
inductive GenError
  | generatorBlockCount
deriving DecidableEq, Repr

/-- The member predicate inside `isClientGenerator`: a `config` named
`provider` whose value is the string literal `prisma-client-js` or
`prisma-client`. -/
def isClientProviderConfig : BlockMember → Bool
  | BlockMember.config name (SchemaExpr.literal (LiteralValue.str v)) =>
      name = "provider" && (v = "prisma-client-js" || v = "prisma-client")
  | _ => false

/-- `isClientGenerator` from the source: a generator declaration one of whose
members satisfies `isClientProviderConfig`. -/
def isClientGenerator (decl : Declaration) : Bool :=
  match decl with
  | Declaration.generator members => members.any isClientProviderConfig
  | _ => false

/-- Does this member match the `output` lookup in `updateGenerator`
(`attr.kind === "config" && attr.name?.value === "output"`)? -/
def isOutputConfig : BlockMember → Bool
  | BlockMember.config name _ => name = "output"
  | _ => false

/-- In-place update of the first `output` config member's value, mirroring the
mutation `generatorOutputAttribute.value = { kind: "literal", value: p }`. -/
def replaceFirstOutput (p : String) : List BlockMember → List BlockMember
  | [] => []
  | m :: ms =>
      if isOutputConfig m then
        BlockMember.config "output" (SchemaExpr.literal (LiteralValue.str p)) :: ms
      else m :: replaceFirstOutput p ms

/-- The member-level effect of `updateGenerator` on the (unique) client
generator block: update an existing `output` config, else append a new one. -/
def setOutput (members : List BlockMember) (p : String) : List BlockMember :=
  if members.any isOutputConfig then replaceFirstOutput p members
  else members ++ [BlockMember.config "output" (SchemaExpr.literal (LiteralValue.str p))]

/-- Applies `setOutput` to a generator declaration, leaving others unchanged. -/
def updateDeclOutput (p : String) : Declaration → Declaration
  | Declaration.generator members => Declaration.generator (setOutput members p)
  | d => d

/-- The object mutated by `updateGenerator` is `clientGenerators[0]`, i.e. the
first client generator in declaration order; in the functional model the copy
with that declaration updated is returned. -/
def replaceFirstClientGenerator (p : String) : List Declaration → List Declaration
  | [] => []
  | d :: ds =>
      if isClientGenerator d then updateDeclOutput p d :: ds
      else d :: replaceFirstClientGenerator p ds

/-- `updateGenerator` from the source: requires exactly one client generator
block (fatal error otherwise) and rewrites its `output` field to the supplied
path.  The TypeScript "must have members" guard is unreachable here because a
generator declaration always carries its member list. -/
def updateGenerator (ast : PrismaSchema) (clientOutputPath : String) : Except GenError PrismaSchema :=
  let clientGenerators := ast.declarations.filter isClientGenerator
  if clientGenerators.length ≠ 1 then Except.error GenError.generatorBlockCount
  else Except.ok ⟨replaceFirstClientGenerator clientOutputPath ast.declarations⟩

/-- The value of the first `output` config member of a generator declaration. -/
def firstOutputValue : Declaration → Option SchemaExpr
  | Declaration.generator ms =>
      match ms.find? isOutputConfig with
      | some (BlockMember.config _ v) => some v
      | _ => none
  | _ => none

/-- The `output` value of a schema's first client generator block. -/
def clientGeneratorOutput (s : PrismaSchema) : Option SchemaExpr :=
  match s.declarations.find? isClientGenerator with
  | some d => firstOutputValue d
  | none => none

/-! ## JavaScript array semantics used by `CLI.migrate` -/

/-- ECMAScript `Array.prototype.indexOf`: index of the first occurrence, `-1`
when the element is absent. -/
def jsIndexOf (l : List String) (x : String) : Int :=
  match l with
  | [] => -1
  | a :: rest =>
      if a = x then 0
      else
        let r := jsIndexOf rest x
        if r = -1 then -1 else r + 1

/-- ECMAScript `Array.prototype.slice(0, e)`: a negative end counts from the
end of the array (clamped at 0), a non-negative end is clamped at the length. -/
def jsSlice (l : List α) (e : Int) : List α :=
  let len : Int := l.length
  let fin : Int := if e < 0 then max (len + e) 0 else min e len
  l.take fin.toNat

/-- JavaScript truthiness of the optional `targetMigration` string: `undefined`
and the empty string are falsy. -/
def truthy : Option String → Bool
  | none => false
  | some s => s ≠ ""

/-! ## The migration orchestrator (`CLI.migrate`) -/

/-- The engine's persisted migration-history state as `CLI.migrate` observes it:
whether the `_prisma_migrations` table exists, and for each migration name the
`applied_steps_count` of its row (`none` when there is no row). -/
structure HistoryState where
  tableExists : Bool
  rows : String → Option Nat

/-- Externally observable actions of one `migrate` run, in order. -/
inductive Event
  | connect
  | disconnect
  | migrateTo (name : String)
  | runPostScript (name : String)
deriving DecidableEq, Repr

/-- Errors that abort a `migrate` run, one per throwing collaborator. -/
inductive MigError
  | invalidMigrationName
  | dsConfigError
  | engineFailure
  | scriptFailure
deriving DecidableEq, Repr

/-- The external collaborators of `CLI.migrate`, as an abstract environment:
the naming validator (`Validator` is not among the provided sources; modelled
from the spec: `validateMigrationName` checks the naming convention only), the
migration directory listing after the `isMigration` filter, the post-script
classifier, the engine's effect on history (`migrateTo`), and failure oracles
for the engine, the script runner and `readDataSourceConfig`. -/
structure MigrateEnv where
  namingValid : String → Bool
  rawMigrations : List String
  hasPostScript : String → Bool
  engine : String → HistoryState → HistoryState
  engineFails : String → Bool
  scriptFails : String → Bool
  dsConfigFails : Bool

/-- The per-iteration decision of `CLI.migrate` (line 150 of `CLI.ts`): run the
post-script exactly when `migrationAppliedCount + 1 === newMigrationAppliedCount`,
where the before-count is 0 if the history table does not exist or the row is
absent, and the after-count defaults an absent row to 0. -/
def shouldRunPostScript (h h' : HistoryState) (m : String) : Bool :=
  let migrationAppliedCount := if h.tableExists then (h.rows m).getD 0 else 0
  let newMigrationAppliedCount := (h'.rows m).getD 0
  migrationAppliedCount + 1 = newMigrationAppliedCount

/-- The `for (const migrationName of dataMigrations)` loop of `CLI.migrate`:
sample history, advance the engine to the migration, sample again, and run the
post-script when the delta test passes.  Produces the event trace, the final
history state, and the first error (which aborts the loop). -/
def migrateLoop (env : MigrateEnv) (h : HistoryState) :
    List String → List Event × HistoryState × Option MigError
  | [] => ([], h, none)
  | m :: rest =>
      if env.engineFails m then ([Event.migrateTo m], h, some MigError.engineFailure)
      else
        let h' := env.engine m h
        if shouldRunPostScript h h' m then
          if env.scriptFails m then
            ([Event.migrateTo m, Event.runPostScript m], h', some MigError.scriptFailure)
          else
            let r := migrateLoop env h' rest
            (Event.migrateTo m :: Event.runPostScript m :: r.1, r.2)
        else
          let r := migrateLoop env h' rest
          (Event.migrateTo m :: r.1, r.2)

/-- The slice computation of `CLI.migrate` (lines 123-130):
`lastMigrationIndex` is `indexOf(target)` when a target is (truthily) present,
else the list length, and the slice end adds 1 when the target is included. -/
def selectMigrations (rawMigrations : List String) (targetMigration : Option String)
    (includeTargetMigration : Bool) : List String :=
  let lastMigrationIndex : Int :=
    if truthy targetMigration then jsIndexOf rawMigrations (targetMigration.getD "")
    else rawMigrations.length
  jsSlice rawMigrations (lastMigrationIndex + (if includeTargetMigration then 1 else 0))

/-- The final catch-up call of `CLI.migrate` (lines 156-158): when the last
data migration is not the last migration of the slice, advance the engine once
more to the slice's last element. -/
def finalCatchUp (env : MigrateEnv) (migrations dataMigrations : List String)
    (h : HistoryState) : List Event × HistoryState × Option MigError :=
  if dataMigrations.getLast? ≠ migrations.getLast? then
    match migrations.getLast? with
    | some last =>
        if env.engineFails last then ([Event.migrateTo last], h, some MigError.engineFailure)
        else ([Event.migrateTo last], env.engine last h, none)
    | none => ([], h, none)
  else ([], h, none)

/-- `CLI.migrate`: validate a truthy target against the naming convention,
compute the target slice and its post-script-bearing subsequence, resolve the
datasource and connect, run the per-migration loop, issue the final catch-up
call, and disconnect.  An error from any step aborts the rest of the run. -/
def migrate (env : MigrateEnv) (targetMigration : Option String)
    (includeTargetMigration : Bool) (h0 : HistoryState) :
    List Event × HistoryState × Option MigError :=
  if truthy targetMigration && !env.namingValid (targetMigration.getD "") then
    ([], h0, some MigError.invalidMigrationName)
  else
    let migrations := selectMigrations env.rawMigrations targetMigration includeTargetMigration
    let dataMigrations := migrations.filter env.hasPostScript
    if env.dsConfigFails then ([], h0, some MigError.dsConfigError)
    else
      let r := migrateLoop env h0 dataMigrations
      match r.2.2 with
      | some e => (Event.connect :: r.1, r.2.1, some e)
      | none =>
          let f := finalCatchUp env migrations dataMigrations r.2.1
          match f.2.2 with
          | some e => (Event.connect :: r.1 ++ f.1, f.2.1, some e)
          | none => (Event.connect :: r.1 ++ f.1 ++ [Event.disconnect], f.2.1, none)

/-- Specification-side trace of the per-migration loop, following the spec's
words: sample `before` (counting a missing table or row as zero), advance the
engine, sample `after`, and execute the post-script if and only if the integer
delta `after - before` equals 1 (so deltas of 0 and of more than 1 both skip). -/
def loopTraceSpec (env : MigrateEnv) (h : HistoryState) : List String → List Event
  | [] => []
  | m :: rest =>
      let beforeCount : Int := if h.tableExists then ((h.rows m).getD 0 : Nat) else 0
      let h' := env.engine m h
      let afterCount : Int := ((h'.rows m).getD 0 : Nat)
      Event.migrateTo m ::
        ((if afterCount - beforeCount = 1 then [Event.runPostScript m] else []) ++
          loopTraceSpec env h' rest)

/-! ## The per-migration codegen body of `CLI.generate` -/

/-- Observable filesystem / process actions of one codegen task. -/
inductive GenEvent
  | writeTempSchema
  | invokeGenerator
  | rmTempSchema
deriving DecidableEq, Repr

/-- Failure of the external generator invocation (`PrismaCLI.generate`). -/
inductive GenRunError
  | generatorFailed
deriving DecidableEq, Repr

/-- A `try { body } finally { cleanup }` over traces: the cleanup events always
run, and the body's error (if any) propagates afterwards. -/
def tryFinallySteps (body : List GenEvent × Option GenRunError) (cleanup : List GenEvent) :
    List GenEvent × Option GenRunError :=
  (body.1 ++ cleanup, body.2)

/-- The external generator invocation, with a failure oracle. -/
def prismaGenerate (generatorFails : Bool) : List GenEvent × Option GenRunError :=
  ([GenEvent.invokeGenerator],
   if generatorFails then some GenRunError.generatorFailed else none)

/-- The per-migration body of `CLI.generate` (lines 57-64): write the temp
schema, then invoke the generator inside `try`, removing the temp schema in
`finally` on every exit path. -/
def generateForMigration (generatorFails : Bool) : List GenEvent × Option GenRunError :=
  let guarded := tryFinallySteps (prismaGenerate generatorFails) [GenEvent.rmTempSchema]
  (GenEvent.writeTempSchema :: guarded.1, guarded.2)

/-! ## Auxiliary predicates and concrete instances used in the theorems -/

/-- No external collaborator of the orchestrator fails during the run. -/
def noFails (env : MigrateEnv) : Prop :=
  (∀ m, env.engineFails m = false) ∧ (∀ m, env.scriptFails m = false)

/-- Is this event a call into the external migration engine? -/
def isEngineCall : Event → Bool
  | Event.migrateTo _ => true
  | _ => false

/-- A fresh database: no history table, no rows. -/
def histEmpty : HistoryState := { tableExists := false, rows := fun _ => none }

/-- A history state whose only row is `m1` with the given step count. -/
def histM1 (n : Nat) : HistoryState :=
  { tableExists := true, rows := fun name => if name = "m1" then some n else none }

/-- Environment for the C2 counterexample: one post-script-bearing migration
whose engine advance throws. -/
def envEngineFail : MigrateEnv :=
  { namingValid := fun _ => true
    rawMigrations := ["m1"]
    hasPostScript := fun _ => true
    engine := fun _ h => h
    engineFails := fun _ => true
    scriptFails := fun _ => false
    dsConfigFails := false }

/-- Environment for the C4 counterexample: three migrations, a naming validator
accepting every non-empty name, no failures. -/
def envThree : MigrateEnv :=
  { namingValid := fun s => s ≠ ""
    rawMigrations := ["m1", "m2", "m3"]
    hasPostScript := fun _ => false
    engine := fun _ h => h
    engineFails := fun _ => false
    scriptFails := fun _ => false
    dsConfigFails := false }

/-- Environment for the C8 counterexample: one post-script-bearing migration and
an engine whose advance leaves `m1` with fewer applied steps than before. -/
def envShrink : MigrateEnv :=
  { namingValid := fun _ => true
    rawMigrations := ["m1"]
    hasPostScript := fun _ => true
    engine := fun _ _ => histM1 2
    engineFails := fun _ => false
    scriptFails := fun _ => false
    dsConfigFails := false }

/-- Environment for success-path witnesses: one post-script-bearing migration
whose engine advance records exactly one new step. -/
def envStep : MigrateEnv :=
  { namingValid := fun _ => true
    rawMigrations := ["m1"]
    hasPostScript := fun _ => true
    engine := fun _ _ => histM1 1
    engineFails := fun _ => false
    scriptFails := fun _ => false
    dsConfigFails := false }

/-- A schema with exactly one client generator block (and a datasource). -/
def astOneGenerator : PrismaSchema :=
  ⟨[Declaration.datasource [BlockMember.config "provider"
      (SchemaExpr.literal (LiteralValue.str "postgresql"))],
    Declaration.generator [BlockMember.config "provider"
      (SchemaExpr.literal (LiteralValue.str "prisma-client-js"))]]⟩

/-- A schema with two client generator blocks. -/
def astTwoGenerators : PrismaSchema :=
  ⟨[Declaration.generator [BlockMember.config "provider"
      (SchemaExpr.literal (LiteralValue.str "prisma-client-js"))],
    Declaration.generator [BlockMember.config "provider"
      (SchemaExpr.literal (LiteralValue.str "prisma-client"))]]⟩

/-- The `migrations` slice a `migrate` run works on. -/
def migrationsOf (env : MigrateEnv) (t : Option String) (inc : Bool) : List String :=
  selectMigrations env.rawMigrations t inc

/-- The `dataMigrations` (post-script-bearing) subsequence of the slice. -/
def dataMigrationsOf (env : MigrateEnv) (t : Option String) (inc : Bool) : List String :=
  (migrationsOf env t inc).filter env.hasPostScript

/-- History state after the engine has advanced through a list of migrations. -/
def engineFold (env : MigrateEnv) (h : HistoryState) (ms : List String) : HistoryState :=
  ms.foldl (fun hh m => env.engine m hh) h

/-! ## Lemmas about the JavaScript array primitives -/

theorem jsIndexOf_append_cons (pre : List String) (t : String) (post : List String)
    (hpre : t ∉ pre) : jsIndexOf (pre ++ t :: post) t = pre.length := by
  induction pre with
  | nil => simp [jsIndexOf]
  | cons a rest ih =>
      have ha : a ≠ t := fun h => hpre (h ▸ List.mem_cons_self a rest)
      have hrest : t ∉ rest := fun h => hpre (List.mem_cons_of_mem a h)
      have hr := ih hrest
      simp only [List.cons_append, jsIndexOf, ha, if_false, List.append_eq]
      rw [hr]
      have : ((rest ++ t :: post).length : Int) ≠ -1 := by omega
      simp only [List.length_cons]
      omega

theorem jsIndexOf_of_not_mem (l : List String) (t : String) (h : t ∉ l) :
    jsIndexOf l t = -1 := by
  induction l with
  | nil => rfl
  | cons a rest ih =>
      have ha : a ≠ t := fun hh => h (hh ▸ List.mem_cons_self a rest)
      have hrest : t ∉ rest := fun hh => h (List.mem_cons_of_mem a hh)
      simp [jsIndexOf, ha, ih hrest]

theorem jsSlice_natCast {α : Type} (l : List α) (n : Nat) :
    jsSlice l (n : Int) = l.take n := by
  unfold jsSlice
  have h0 : ¬ ((n : Int) < 0) := by omega
  simp only [h0, if_false]
  rw [show min (n : Int) (l.length : Int) = ((min n l.length : Nat) : Int) from (Nat.cast_min n l.length).symm]
  rw [Int.toNat_natCast]
  rcases le_or_lt n l.length with h | h
  · rw [min_eq_left h]
  · rw [min_eq_right (le_of_lt h), List.take_length, List.take_of_length_le (le_of_lt h)]

theorem jsSlice_neg_one {α : Type} (l : List α) : jsSlice l (-1) = l.dropLast := by
  unfold jsSlice
  have h0 : ((-1 : Int) < 0) := by norm_num
  simp only [h0, if_true]
  have : max ((l.length : Int) + (-1)) 0 = ((l.length - 1 : Nat) : Int) := by omega
  rw [this, Int.toNat_natCast, List.dropLast_eq_take]

/-! ## C3: slice selection -/

/-- C3: for every ordered migration list and every target in it, slice selection
with `includeTargetMigration = false` yields exactly the migrations strictly
before the target, with `true` the migrations up to and including it, and with
no target the whole list regardless of the flag.  (Migration names are
directory names, hence non-empty, so the target is truthy.) -/
theorem C3_slice_selection (pre post raw : List String) (t : String) (inc : Bool)
    (hpre : t ∉ pre) (ht : t ≠ "") :
    selectMigrations (pre ++ t :: post) (some t) false = pre ∧
    selectMigrations (pre ++ t :: post) (some t) true = pre ++ [t] ∧
    selectMigrations raw none inc = raw := by
  have htr : truthy (some t) = true := by simp [truthy, ht]
  refine ⟨?_, ?_, ?_⟩
  · simp only [selectMigrations, htr, if_true, Option.getD_some,
      jsIndexOf_append_cons pre t post hpre, Bool.false_eq_true, if_false, add_zero,
      jsSlice_natCast, List.take_left]
  · simp only [selectMigrations, htr, if_true, Option.getD_some,
      jsIndexOf_append_cons pre t post hpre]
    rw [show (pre.length : Int) + 1 = ((pre.length + 1 : Nat) : Int) by push_cast; ring]
    rw [jsSlice_natCast]
    rw [show pre ++ t :: post = (pre ++ [t]) ++ post by simp]
    rw [show pre.length + 1 = (pre ++ [t]).length by simp]
    exact List.take_left (pre ++ [t]) post
  · simp only [selectMigrations, truthy, Bool.false_eq_true, if_false]
    cases inc
    · simp only [Bool.false_eq_true, if_false, add_zero, jsSlice_natCast, List.take_length]
    · simp only [if_true]
      rw [show (raw.length : Int) + 1 = ((raw.length + 1 : Nat) : Int) by push_cast; ring]
      rw [jsSlice_natCast]
      exact List.take_of_length_le (Nat.le_succ _)

/-- Closed witness for C3 at a concrete three-element list. -/
theorem C3_slice_selection_witness :
    selectMigrations (["m1"] ++ "m2" :: ["m3"]) (some "m2") false = ["m1"] ∧
    selectMigrations (["m1"] ++ "m2" :: ["m3"]) (some "m2") true = ["m1"] ++ ["m2"] ∧
    selectMigrations ["m1", "m2", "m3"] none false = ["m1", "m2", "m3"] :=
  C3_slice_selection ["m1"] ["m3"] ["m1", "m2", "m3"] "m2" false (by decide) (by decide)

/-! ## C6: ephemeral temp-schema cleanup in `CLI.generate` -/

/-- C6: the per-migration codegen body removes the temp schema file after the
generator invocation on every exit path — the trace is write, invoke, remove
whether or not the generator fails — and a generator failure still propagates
after the cleanup. -/
theorem C6_temp_schema_cleanup :
    ∀ generatorFails : Bool,
      (generateForMigration generatorFails).1 =
        [GenEvent.writeTempSchema, GenEvent.invokeGenerator, GenEvent.rmTempSchema] ∧
      ((generateForMigration generatorFails).2 = none ↔ generatorFails = false) := by
  intro gf
  cases gf <;> exact ⟨rfl, by decide⟩

/-! ## C7 and C10: datasource value resolution -/

theorem readArgumentWithEnv_functionCall (env : EnvMap) (path : List String)
    (args : Option (List SchemaExpr)) :
    readArgumentWithEnv env (SchemaExpr.functionCall path args) =
      if String.intercalate "." path = "env" then
        match args with
        | some [a] =>
            match readStringArgument a with
            | Except.ok envName =>
                match env envName with
                | some v =>
                    if v = "" then Except.error (DsError.missingEnvVar envName)
                    else Except.ok v
                | none => Except.error (DsError.missingEnvVar envName)
            | Except.error e => Except.error e
        | _ => Except.error DsError.envArgCount
      else Except.error DsError.unsupportedExpression := rfl

theorem readArgumentWithEnv_env_single (env : EnvMap) (path : List String)
    (hpath : String.intercalate "." path = "env") (a : SchemaExpr) :
    readArgumentWithEnv env (SchemaExpr.functionCall path (some [a])) =
      match readStringArgument a with
      | Except.ok envName =>
          match env envName with
          | some v =>
              if v = "" then Except.error (DsError.missingEnvVar envName)
              else Except.ok v
          | none => Except.error (DsError.missingEnvVar envName)
      | Except.error e => Except.error e := by
  rw [readArgumentWithEnv_functionCall, if_pos hpath]

theorem readStringArgument_error (a : SchemaExpr) (e : DsError)
    (h : readStringArgument a = Except.error e) : e = DsError.externalStringArgument := by
  cases a with
  | literal v =>
      cases v with
      | str s => simp [readStringArgument] at h
      | num n => simp [readStringArgument] at h; exact h.symm
      | bool b => simp [readStringArgument] at h; exact h.symm
  | functionCall p args => simp [readStringArgument] at h; exact h.symm
  | otherExpr => simp [readStringArgument] at h; exact h.symm

/-- C7 counterexample: an `env()` call with zero arguments fails, but with the
dedicated arity error, not the unsupported-expression error the claim names. -/
theorem C7_env_arity_counterexample :
    readArgumentWithEnv (fun _ => none) (SchemaExpr.functionCall ["env"] (some [])) =
      Except.error DsError.envArgCount ∧
    DsError.envArgCount ≠ DsError.unsupportedExpression :=
  ⟨rfl, by decide⟩

/-- C7 (amended): a string literal resolves verbatim; a single-argument `env()`
call resolves to the environment value, failing with the missing-variable error
when unset; an `env()` call with an argument count other than one fails with
the dedicated arity error; and the unsupported-expression error is raised for
exactly the non-literal, non-`env`-call expression forms. -/
theorem C7_value_resolution (env : EnvMap) (s name : String)
    (args : Option (List SchemaExpr)) (arg : SchemaExpr) :
    (readArgumentWithEnv env (SchemaExpr.literal (LiteralValue.str s)) = Except.ok s) ∧
    (env name = none →
      readArgumentWithEnv env (envCall name) = Except.error (DsError.missingEnvVar name)) ∧
    (∀ v, env name = some v → v ≠ "" →
      readArgumentWithEnv env (envCall name) = Except.ok v) ∧
    ((match args with | some l => l.length ≠ 1 | none => True) →
      readArgumentWithEnv env (SchemaExpr.functionCall ["env"] args) =
        Except.error DsError.envArgCount) ∧
    (readArgumentWithEnv env arg = Except.error DsError.unsupportedExpression ↔
      unsupportedForm arg = true) := by
  refine ⟨rfl, ?_, ?_, ?_, ?_⟩
  · intro h
    rw [envCall, readArgumentWithEnv_functionCall, if_pos (by decide)]
    simp [readStringArgument, h]
  · intro v hv hne
    rw [envCall, readArgumentWithEnv_functionCall, if_pos (by decide)]
    simp [readStringArgument, hv, hne]
  · intro h
    rw [readArgumentWithEnv_functionCall, if_pos (by decide)]
    rcases args with _ | ⟨_ | ⟨a, _ | ⟨b, rest⟩⟩⟩
    · rfl
    · rfl
    · simp at h
    · rfl
  · constructor
    · intro h
      cases arg with
      | literal v => cases v <;> simp [readArgumentWithEnv] at h
      | otherExpr => rfl
      | functionCall path args2 =>
          simp only [unsupportedForm, Bool.not_eq_true', decide_eq_false_iff_not]
          intro hpath
          rcases args2 with _ | ⟨_ | ⟨a, _ | ⟨b, rest⟩⟩⟩
          · rw [readArgumentWithEnv_functionCall, if_pos hpath] at h; simp at h
          · rw [readArgumentWithEnv_functionCall, if_pos hpath] at h; simp at h
          · rw [readArgumentWithEnv_env_single env path hpath a] at h
            rcases ha : readStringArgument a with e | envName
            · rw [ha] at h
              simp only [Except.error.injEq] at h
              rw [readStringArgument_error a e ha] at h
              exact DsError.noConfusion h
            · rw [ha] at h
              simp only [] at h
              rcases henv : env envName with _ | v
              · rw [henv] at h; simp at h
              · rw [henv] at h
                by_cases hv : v = "" <;> simp [hv] at h
          · rw [readArgumentWithEnv_functionCall, if_pos hpath] at h; simp at h
    · intro h
      cases arg with
      | literal v => simp [unsupportedForm] at h
      | otherExpr => rfl
      | functionCall path args2 =>
          simp only [unsupportedForm, Bool.not_eq_true', decide_eq_false_iff_not] at h
          rw [readArgumentWithEnv_functionCall, if_neg h]

/-- Closed witness for C7: every hypothesis-bearing part instantiated. -/
theorem C7_value_resolution_witness :
    ((fun _ => none : EnvMap) "X" = none →
      readArgumentWithEnv (fun _ => none) (envCall "X") =
        Except.error (DsError.missingEnvVar "X")) ∧
    (readArgumentWithEnv (fun _ => none) SchemaExpr.otherExpr =
        Except.error DsError.unsupportedExpression ↔
      unsupportedForm SchemaExpr.otherExpr = true) := by
  have h := C7_value_resolution (fun _ => none) "s" "X" (some []) SchemaExpr.otherExpr
  exact ⟨h.2.1, h.2.2.2.2⟩

/-- C10: an environment variable set to the empty string is rejected with the
same missing-variable error as an unset one, and an `env()`-resolved value is
never the empty string. -/
theorem C10_empty_env_rejected (env env2 : EnvMap) (name : String) :
    (env name = some "" →
      readArgumentWithEnv env (envCall name) = Except.error (DsError.missingEnvVar name)) ∧
    (env2 name = none →
      readArgumentWithEnv env2 (envCall name) = Except.error (DsError.missingEnvVar name)) ∧
    (∀ (path : List String) (args : Option (List SchemaExpr)) (v : String),
      readArgumentWithEnv env (SchemaExpr.functionCall path args) = Except.ok v → v ≠ "") := by
  refine ⟨?_, ?_, ?_⟩
  · intro h
    rw [envCall, readArgumentWithEnv_functionCall, if_pos (by decide)]
    simp [readStringArgument, h]
  · intro h
    rw [envCall, readArgumentWithEnv_functionCall, if_pos (by decide)]
    simp [readStringArgument, h]
  · intro path args v h
    by_cases hpath : String.intercalate "." path = "env"
    · rcases args with _ | ⟨_ | ⟨a, _ | ⟨b, rest⟩⟩⟩
      · rw [readArgumentWithEnv_functionCall, if_pos hpath] at h; simp at h
      · rw [readArgumentWithEnv_functionCall, if_pos hpath] at h; simp at h
      · rw [readArgumentWithEnv_env_single env path hpath a] at h
        rcases ha : readStringArgument a with e | envName
        · rw [ha] at h; simp at h
        · rw [ha] at h
          simp only [] at h
          rcases henv : env envName with _ | w
          · rw [henv] at h; simp at h
          · rw [henv] at h
            simp only [] at h
            by_cases hw : w = ""
            · simp [hw] at h
            · rw [if_neg hw] at h
              simp only [Except.ok.injEq] at h
              exact h ▸ hw
      · rw [readArgumentWithEnv_functionCall, if_pos hpath] at h; simp at h
    · rw [readArgumentWithEnv_functionCall, if_neg hpath] at h; simp at h

/-- Closed witness for C10 at a concrete environment. -/
theorem C10_empty_env_rejected_witness :
    readArgumentWithEnv (fun _ => some "") (envCall "DATABASE_URL") =
      Except.error (DsError.missingEnvVar "DATABASE_URL") :=
  (C10_empty_env_rejected (fun _ => some "") (fun _ => none) "DATABASE_URL").1 rfl

/-! ## Lemmas about the orchestrator loop -/

theorem shouldRunPostScript_iff (h h' : HistoryState) (m : String) :
    shouldRunPostScript h h' m = true ↔
      (((h'.rows m).getD 0 : Int) -
        (if h.tableExists then (((h.rows m).getD 0 : Nat) : Int) else 0) = 1) := by
  unfold shouldRunPostScript
  by_cases ht : h.tableExists <;> simp [ht] <;> omega

theorem migrateLoop_noFails (env : MigrateEnv) (hf : noFails env) :
    ∀ (ms : List String) (h : HistoryState),
      migrateLoop env h ms = (loopTraceSpec env h ms, engineFold env h ms, none) := by
  intro ms
  induction ms with
  | nil => intro h; simp [migrateLoop, loopTraceSpec, engineFold]
  | cons m rest ih =>
      intro h
      rw [migrateLoop]
      simp only [hf.1 m, Bool.false_eq_true, if_false]
      by_cases hrun : shouldRunPostScript h (env.engine m h) m
      · rw [if_pos hrun]
        simp only [hf.2 m, Bool.false_eq_true, if_false]
        rw [ih (env.engine m h)]
        rw [loopTraceSpec]
        rw [if_pos ((shouldRunPostScript_iff h (env.engine m h) m).mp hrun)]
        simp [engineFold]
      · rw [if_neg hrun]
        rw [ih (env.engine m h)]
        rw [loopTraceSpec]
        have hc : ¬ ((((env.engine m h).rows m).getD 0 : Int) -
            (if h.tableExists then (((h.rows m).getD 0 : Nat) : Int) else 0) = 1) := by
          intro hc
          exact hrun ((shouldRunPostScript_iff h (env.engine m h) m).mpr hc)
        rw [if_neg hc]
        simp [engineFold]

theorem loopTraceSpec_countP (env : MigrateEnv) :
    ∀ (ms : List String) (h : HistoryState),
      List.countP isEngineCall (loopTraceSpec env h ms) = ms.length := by
  intro ms
  induction ms with
  | nil => intro h; simp [loopTraceSpec]
  | cons m rest ih =>
      intro h
      rw [loopTraceSpec]
      by_cases hc : ((((env.engine m h).rows m).getD 0 : Nat) : Int) -
          (if h.tableExists then (((h.rows m).getD 0 : Nat) : Int) else 0) = 1
      · rw [if_pos hc]
        simp [List.countP_cons, List.countP_append, isEngineCall, ih]
      · rw [if_neg hc]
        simp [List.countP_cons, List.countP_append, isEngineCall, ih]

theorem disconnect_not_mem_migrateLoop (env : MigrateEnv) :
    ∀ (ms : List String) (h : HistoryState),
      Event.disconnect ∉ (migrateLoop env h ms).1 := by
  intro ms
  induction ms with
  | nil => intro h; simp [migrateLoop]
  | cons m rest ih =>
      intro h
      rw [migrateLoop]
      by_cases he : env.engineFails m
      · simp [he]
      · simp only [he, Bool.false_eq_true, if_false]
        by_cases hrun : shouldRunPostScript h (env.engine m h) m
        · rw [if_pos hrun]
          by_cases hs : env.scriptFails m
          · simp [hs]
          · simp only [hs, Bool.false_eq_true, if_false]
            simp [ih (env.engine m h)]
        · rw [if_neg hrun]
          simp [ih (env.engine m h)]

theorem disconnect_not_mem_finalCatchUp (env : MigrateEnv) (migs dms : List String)
    (h : HistoryState) : Event.disconnect ∉ (finalCatchUp env migs dms h).1 := by
  unfold finalCatchUp
  split
  · split
    · split <;> simp
    · simp
  · simp

theorem migrateLoop_err_cases (env : MigrateEnv) :
    ∀ (ms : List String) (h : HistoryState),
      (migrateLoop env h ms).2.2 = none ∨
      (migrateLoop env h ms).2.2 = some MigError.engineFailure ∨
      (migrateLoop env h ms).2.2 = some MigError.scriptFailure := by
  intro ms
  induction ms with
  | nil => intro h; simp [migrateLoop]
  | cons m rest ih =>
      intro h
      rw [migrateLoop]
      by_cases he : env.engineFails m
      · simp [he]
      · simp only [he, Bool.false_eq_true, if_false]
        by_cases hrun : shouldRunPostScript h (env.engine m h) m
        · rw [if_pos hrun]
          by_cases hs : env.scriptFails m
          · simp [hs]
          · simp only [hs, Bool.false_eq_true, if_false]
            exact ih (env.engine m h)
        · rw [if_neg hrun]
          exact ih (env.engine m h)

theorem finalCatchUp_noFails (env : MigrateEnv) (hf : noFails env) (migs dms : List String)
    (h : HistoryState) :
    finalCatchUp env migs dms h =
      if dms.getLast? = migs.getLast? then ([], h, none)
      else
        match migs.getLast? with
        | some last => ([Event.migrateTo last], env.engine last h, none)
        | none => ([], h, none) := by
  unfold finalCatchUp
  by_cases heq : dms.getLast? = migs.getLast?
  · simp [heq]
  · rcases hlast : migs.getLast? with _ | last
    · simp [heq, hlast]
    · simp [heq, hlast, hf.1 last]

/-! ## C1: exactly-once step-delta policy -/

/-- C1: in a failure-free run, the orchestrator loop's trace coincides with the
spec-side trace in which the post-script of each processed migration fires if
and only if the integer delta of its `applied_steps_count` samples around the
engine call equals 1 (a missing history table or row sampling as zero), so
deltas of 0 and of more than 1 both skip, and the loop never aborts. -/
theorem C1_exactly_once_policy (env : MigrateEnv) (h : HistoryState) (ms : List String)
    (hf : noFails env) :
    (migrateLoop env h ms).1 = loopTraceSpec env h ms ∧
    (migrateLoop env h ms).2.2 = none := by
  rw [migrateLoop_noFails env hf ms h]
  exact ⟨rfl, rfl⟩

/-- Closed witness for C1: a fresh database and an engine that records one step
make the post-script fire exactly once. -/
theorem C1_exactly_once_policy_witness :
    noFails envStep ∧
    (migrateLoop envStep histEmpty ["m1"]).1 = loopTraceSpec envStep histEmpty ["m1"] ∧
    loopTraceSpec envStep histEmpty ["m1"] =
      [Event.migrateTo "m1", Event.runPostScript "m1"] := by
  have hf : noFails envStep := ⟨fun m => rfl, fun m => rfl⟩
  exact ⟨hf, (C1_exactly_once_policy envStep histEmpty ["m1"] hf).1, by decide⟩

/-! ## Characterization of a failure-free `migrate` run -/

theorem migrate_noFails (env : MigrateEnv) (t : Option String) (inc : Bool) (h0 : HistoryState)
    (hf : noFails env) (hds : env.dsConfigFails = false)
    (hv : (truthy t && !env.namingValid (t.getD "")) = false) :
    (migrate env t inc h0).1 =
      Event.connect :: loopTraceSpec env h0 (dataMigrationsOf env t inc) ++
        (if (dataMigrationsOf env t inc).getLast? = (migrationsOf env t inc).getLast? then []
         else
           match (migrationsOf env t inc).getLast? with
           | some last => [Event.migrateTo last]
           | none => []) ++ [Event.disconnect] ∧
    (migrate env t inc h0).2.2 = none := by
  rw [migrate]
  simp only [hv, Bool.false_eq_true, if_false, hds]
  rw [migrateLoop_noFails env hf]
  rw [finalCatchUp_noFails env hf]
  simp only [dataMigrationsOf, migrationsOf]
  by_cases heq : ((selectMigrations env.rawMigrations t inc).filter env.hasPostScript).getLast? =
      (selectMigrations env.rawMigrations t inc).getLast?
  · rw [if_pos heq, if_pos heq]
    simp only []
    exact ⟨by simp, trivial⟩
  · rw [if_neg heq, if_neg heq]
    rcases hlast : (selectMigrations env.rawMigrations t inc).getLast? with _ | last
    · simp only []
      exact ⟨by simp, trivial⟩
    · simp only []
      exact ⟨by simp, trivial⟩

/-! ## C2: connection release -/

/-- C2 counterexample: a run in which the engine advance for the first data
migration throws has connected but never disconnects — `CLI.migrate` has no
`try`/`finally` around the connection. -/
theorem C2_no_disconnect_on_failure_counterexample :
    Event.connect ∈ (migrate envEngineFail none true histEmpty).1 ∧
    (migrate envEngineFail none true histEmpty).2.2 = some MigError.engineFailure ∧
    Event.disconnect ∉ (migrate envEngineFail none true histEmpty).1 := by
  refine ⟨by decide, by decide, by decide⟩

/-- C2 (amended): `disconnect` is called exactly on the successful exit path:
a run that finishes without error has connected and disconnected, while a run
that fails at any step propagates the error without ever disconnecting. -/
theorem C2_disconnect_on_success_only (env : MigrateEnv) (t : Option String) (inc : Bool)
    (h0 : HistoryState) :
    ((migrate env t inc h0).2.2 = none →
        Event.connect ∈ (migrate env t inc h0).1 ∧
        Event.disconnect ∈ (migrate env t inc h0).1) ∧
    ((migrate env t inc h0).2.2 ≠ none → Event.disconnect ∉ (migrate env t inc h0).1) := by
  simp only [migrate]
  by_cases hv : (truthy t && !env.namingValid (t.getD "")) = true
  · rw [if_pos hv]
    exact ⟨fun h => by simp at h, fun _ => by simp⟩
  · rw [if_neg hv]
    by_cases hds : env.dsConfigFails = true
    · rw [if_pos hds]
      exact ⟨fun h => by simp at h, fun _ => by simp⟩
    · rw [if_neg hds]
      rcases hl : (migrateLoop env h0
          (List.filter env.hasPostScript (selectMigrations env.rawMigrations t inc))).2.2
        with _ | e
      · simp only []
        rcases hf2 : (finalCatchUp env (selectMigrations env.rawMigrations t inc)
            (List.filter env.hasPostScript (selectMigrations env.rawMigrations t inc))
            (migrateLoop env h0
              (List.filter env.hasPostScript (selectMigrations env.rawMigrations t inc))).2.1).2.2
          with _ | e
        · simp only []
          constructor
          · intro _
            constructor
            · exact List.mem_cons_self _ _
            · apply List.mem_cons_of_mem
              apply List.mem_append_right
              exact List.mem_singleton_self _
          · intro h
            exact absurd rfl h
        · simp only []
          constructor
          · intro h
            simp at h
          · intro _
            intro hmem
            rcases List.mem_cons.mp hmem with h1 | h1
            · exact Event.noConfusion h1
            · rcases List.mem_append.mp h1 with h2 | h2
              · exact disconnect_not_mem_migrateLoop env _ h0 h2
              · exact disconnect_not_mem_finalCatchUp env _ _ _ h2
      · simp only []
        constructor
        · intro h
          simp at h
        · intro _
          intro hmem
          rcases List.mem_cons.mp hmem with h1 | h1
          · exact Event.noConfusion h1
          · exact disconnect_not_mem_migrateLoop env _ h0 h1

/-- Closed witness for C2 on the successful path: the one-step run both
connects and disconnects. -/
theorem C2_disconnect_on_success_only_witness :
    Event.connect ∈ (migrate envStep none true histEmpty).1 ∧
    Event.disconnect ∈ (migrate envStep none true histEmpty).1 :=
  (C2_disconnect_on_success_only envStep none true histEmpty).1 (by decide)

/-! ## C9: the final catch-up engine call -/

theorem getLast_ne_filter_exists {α : Type} (l : List α) (p : α → Bool)
    (h : (l.filter p).getLast? ≠ l.getLast?) : ∃ last, l.getLast? = some last := by
  rcases hl : l.getLast? with _ | last
  · exfalso
    apply h
    have hnil : l = [] := List.getLast?_eq_none_iff.mp hl
    rw [hnil]
    rfl
  · exact ⟨last, rfl⟩

/-- C9: in a failure-free run, the orchestrator makes exactly one engine call
per post-script-bearing migration plus one additional call if and only if the
last data migration is not the last migration of the slice; the extra call
targets the slice's last migration, and an empty slice makes no engine call at
all. -/
theorem C9_final_catchup_call (env : MigrateEnv) (t : Option String) (inc : Bool)
    (h0 : HistoryState) (hf : noFails env) (hds : env.dsConfigFails = false)
    (hv : (truthy t && !env.namingValid (t.getD "")) = false) :
    List.countP isEngineCall (migrate env t inc h0).1 =
      (dataMigrationsOf env t inc).length +
        (if (dataMigrationsOf env t inc).getLast? = (migrationsOf env t inc).getLast?
         then 0 else 1) ∧
    ((dataMigrationsOf env t inc).getLast? ≠ (migrationsOf env t inc).getLast? →
      ∃ last, (migrationsOf env t inc).getLast? = some last ∧
        Event.migrateTo last ∈ (migrate env t inc h0).1) ∧
    (migrationsOf env t inc = [] →
      List.countP isEngineCall (migrate env t inc h0).1 = 0) := by
  obtain ⟨htr, herr⟩ := migrate_noFails env t inc h0 hf hds hv
  have h1 : List.countP isEngineCall (migrate env t inc h0).1 =
      (dataMigrationsOf env t inc).length +
        (if (dataMigrationsOf env t inc).getLast? = (migrationsOf env t inc).getLast?
         then 0 else 1) := by
    rw [htr]
    by_cases heq : (dataMigrationsOf env t inc).getLast? = (migrationsOf env t inc).getLast?
    · rw [if_pos heq, if_pos heq]
      simp only [List.countP_append, List.countP_cons, List.countP_nil]
      rw [loopTraceSpec_countP env (dataMigrationsOf env t inc) h0]
      simp [isEngineCall]
    · rw [if_neg heq, if_neg heq]
      obtain ⟨last, hlast⟩ := getLast_ne_filter_exists (migrationsOf env t inc)
        env.hasPostScript (by rw [dataMigrationsOf] at heq; exact heq)
      rw [hlast]
      simp only [List.countP_append, List.countP_cons, List.countP_nil]
      rw [loopTraceSpec_countP env (dataMigrationsOf env t inc) h0]
      simp [isEngineCall]
  refine ⟨h1, ?_, ?_⟩
  · intro hne
    obtain ⟨last, hlast⟩ := getLast_ne_filter_exists (migrationsOf env t inc)
      env.hasPostScript (by rw [dataMigrationsOf] at hne; exact hne)
    refine ⟨last, hlast, ?_⟩
    rw [htr, if_neg hne, hlast]
    apply List.mem_append_left
    apply List.mem_cons_of_mem
    apply List.mem_append_right
    exact List.mem_singleton_self _
  · intro hm
    rw [h1]
    have hdm : dataMigrationsOf env t inc = [] := by
      rw [dataMigrationsOf, hm]
      rfl
    rw [hdm, hm]
    simp

/-- Closed witness for C9: in the one-migration run whose single migration
bears a post-script, the loop call is the only engine call. -/
theorem C9_final_catchup_call_witness :
    List.countP isEngineCall (migrate envStep none true histEmpty).1 =
      (dataMigrationsOf envStep none true).length +
        (if (dataMigrationsOf envStep none true).getLast? =
            (migrationsOf envStep none true).getLast? then 0 else 1) :=
  (C9_final_catchup_call envStep none true histEmpty ⟨fun _ => rfl, fun _ => rfl⟩ rfl rfl).1

/-! ## C4: target validation -/

theorem finalCatchUp_err_cases (env : MigrateEnv) (migs dms : List String) (h : HistoryState) :
    (finalCatchUp env migs dms h).2.2 = none ∨
    (finalCatchUp env migs dms h).2.2 = some MigError.engineFailure := by
  unfold finalCatchUp
  split
  · split
    · split <;> simp
    · simp
  · simp

/-- C4 counterexample: a conventionally-named target absent from the migration
list does not make `migrate` fail — the run completes without error and has
connected (here with `includeTargetMigration = false`, silently operating on
`slice(0, -1)`, i.e. all but the last migration). -/
theorem C4_unknown_target_counterexample :
    envThree.namingValid "m9" = true ∧
    "m9" ∉ envThree.rawMigrations ∧
    (migrate envThree (some "m9") false histEmpty).2.2 = none ∧
    Event.connect ∈ (migrate envThree (some "m9") false histEmpty).1 := by
  refine ⟨by decide, by decide, by decide, by decide⟩

/-- C4 (amended): a supplied target is validated only against the naming
convention; a convention-valid target that is not in the ordered list never
raises the invalid-name error — `indexOf` returns `-1`, so the slice is empty
when the target is included and all but the last migration when it is not. -/
theorem C4_naming_only_validation (env : MigrateEnv) (t : String) (inc : Bool)
    (h0 : HistoryState) (hval : env.namingValid t = true)
    (hmem : t ∉ env.rawMigrations) (hne : t ≠ "") :
    (migrate env (some t) inc h0).2.2 ≠ some MigError.invalidMigrationName ∧
    selectMigrations env.rawMigrations (some t) true = [] ∧
    selectMigrations env.rawMigrations (some t) false = env.rawMigrations.dropLast := by
  have htr : truthy (some t) = true := by simp [truthy, hne]
  refine ⟨?_, ?_, ?_⟩
  · have hcond : (truthy (some t) && !env.namingValid ((some t).getD "")) = false := by
      simp [truthy, hval]
    simp only [migrate]
    rw [if_neg (by rw [hcond]; exact Bool.false_ne_true)]
    by_cases hds : env.dsConfigFails = true
    · rw [if_pos hds]
      simp
    · rw [if_neg hds]
      rcases hl : (migrateLoop env h0
          (List.filter env.hasPostScript (selectMigrations env.rawMigrations (some t) inc))).2.2
        with _ | e
      · simp only []
        rcases hf2 : (finalCatchUp env (selectMigrations env.rawMigrations (some t) inc)
            (List.filter env.hasPostScript (selectMigrations env.rawMigrations (some t) inc))
            (migrateLoop env h0
              (List.filter env.hasPostScript
                (selectMigrations env.rawMigrations (some t) inc))).2.1).2.2
          with _ | e
        · simp only []
          simp
        · simp only []
          have hcases := finalCatchUp_err_cases env
            (selectMigrations env.rawMigrations (some t) inc)
            (List.filter env.hasPostScript (selectMigrations env.rawMigrations (some t) inc))
            (migrateLoop env h0
              (List.filter env.hasPostScript
                (selectMigrations env.rawMigrations (some t) inc))).2.1
          rw [hf2] at hcases
          rcases hcases with hc | hc
          · exact absurd hc (by simp)
          · have he : e = MigError.engineFailure := by
              injection hc
            rw [he]
            simp
      · simp only []
        have hcases := migrateLoop_err_cases env
          (List.filter env.hasPostScript (selectMigrations env.rawMigrations (some t) inc)) h0
        rw [hl] at hcases
        rcases hcases with hc | hc | hc
        · exact absurd hc (by simp)
        · have he : e = MigError.engineFailure := by injection hc
          rw [he]
          simp
        · have he : e = MigError.scriptFailure := by injection hc
          rw [he]
          simp
  · simp only [selectMigrations, htr, if_true, Option.getD_some,
      jsIndexOf_of_not_mem env.rawMigrations t hmem]
    rw [show (-1 : Int) + 1 = ((0 : Nat) : Int) by norm_num]
    rw [jsSlice_natCast]
    rfl
  · simp only [selectMigrations, htr, if_true, Option.getD_some,
      jsIndexOf_of_not_mem env.rawMigrations t hmem, Bool.false_eq_true, if_false, add_zero]
    exact jsSlice_neg_one env.rawMigrations

/-- Closed witness for C4 (amended): concrete three-migration list, target
`m9` valid by convention but unknown. -/
theorem C4_naming_only_validation_witness :
    (migrate envThree (some "m9") true histEmpty).2.2 ≠ some MigError.invalidMigrationName ∧
    selectMigrations envThree.rawMigrations (some "m9") true = [] ∧
    selectMigrations envThree.rawMigrations (some "m9") false =
      envThree.rawMigrations.dropLast :=
  C4_naming_only_validation envThree "m9" true histEmpty (by decide) (by decide) (by decide)

/-! ## C8: negative step delta -/

/-- C8 counterexample: with a history whose after-sample (2) is below the
before-sample (3), `migrate` finishes without any error and merely skips the
post-script — no integrity fault is raised. -/
theorem C8_negative_delta_counterexample :
    (((envShrink.engine "m1" (histM1 3)).rows "m1").getD 0 : Int) <
      (if (histM1 3).tableExists then ((((histM1 3).rows "m1").getD 0 : Nat) : Int) else 0) ∧
    (migrate envShrink none true (histM1 3)).2.2 = none ∧
    Event.runPostScript "m1" ∉ (migrate envShrink none true (histM1 3)).1 := by
  refine ⟨by decide, by decide, by decide⟩

/-- C8 (amended): a negative step delta makes the delta test false, so the
loop skips the post-script for that migration and continues with the rest of
the run instead of aborting. -/
theorem C8_negative_delta_skips (env : MigrateEnv) (h : HistoryState) (m : String)
    (rest : List String) (he : env.engineFails m = false)
    (hneg : (((env.engine m h).rows m).getD 0 : Int) <
      (if h.tableExists then (((h.rows m).getD 0 : Nat) : Int) else 0)) :
    shouldRunPostScript h (env.engine m h) m = false ∧
    migrateLoop env h (m :: rest) =
      (Event.migrateTo m :: (migrateLoop env (env.engine m h) rest).1,
       (migrateLoop env (env.engine m h) rest).2) := by
  have hrun : ¬ shouldRunPostScript h (env.engine m h) m = true := by
    rw [shouldRunPostScript_iff]
    omega
  refine ⟨Bool.eq_false_iff.mpr hrun, ?_⟩
  rw [migrateLoop]
  simp only [he, Bool.false_eq_true, if_false]
  rw [if_neg hrun]

/-- Closed witness for C8 (amended): the shrinking-history engine on a row
with three prior steps. -/
theorem C8_negative_delta_skips_witness :
    shouldRunPostScript (histM1 3) (envShrink.engine "m1" (histM1 3)) "m1" = false ∧
    migrateLoop envShrink (histM1 3) ["m1"] =
      (Event.migrateTo "m1" ::
        (migrateLoop envShrink (envShrink.engine "m1" (histM1 3)) []).1,
       (migrateLoop envShrink (envShrink.engine "m1" (histM1 3)) []).2) :=
  C8_negative_delta_skips envShrink (histM1 3) "m1" [] rfl (by decide)

/-! ## C5: generator block count and output rewrite -/

theorem isClientProviderConfig_not_output (x : BlockMember)
    (h : isClientProviderConfig x = true) : isOutputConfig x = false := by
  cases x with
  | otherMember => rfl
  | config name val =>
      cases val with
      | literal v =>
          cases v with
          | str s =>
              simp only [isClientProviderConfig, Bool.and_eq_true, decide_eq_true_eq] at h
              obtain ⟨h1, _⟩ := h
              subst h1
              rfl
          | num n => simp [isClientProviderConfig] at h
          | bool b => simp [isClientProviderConfig] at h
      | functionCall p a => simp [isClientProviderConfig] at h
      | otherExpr => simp [isClientProviderConfig] at h

theorem any_replaceFirstOutput (p : String) :
    ∀ ms : List BlockMember, ms.any isClientProviderConfig = true →
      (replaceFirstOutput p ms).any isClientProviderConfig = true := by
  intro ms
  induction ms with
  | nil => intro h; simp at h
  | cons m rest ih =>
      intro h
      rw [replaceFirstOutput]
      by_cases hq : isOutputConfig m = true
      · rw [if_pos hq]
        rw [List.any_cons] at h ⊢
        rcases Bool.or_eq_true_iff.mp h with hm | hrest
        · rw [isClientProviderConfig_not_output m hm] at hq
          exact Bool.noConfusion hq
        · rw [hrest]
          simp
      · rw [if_neg hq]
        rw [List.any_cons] at h ⊢
        rcases Bool.or_eq_true_iff.mp h with hm | hrest
        · rw [hm]
          simp
        · rw [ih hrest]
          simp

theorem isClientGenerator_updateDeclOutput (p : String) (d : Declaration)
    (h : isClientGenerator d = true) : isClientGenerator (updateDeclOutput p d) = true := by
  cases d with
  | generator ms =>
      rw [isClientGenerator] at h
      rw [updateDeclOutput, isClientGenerator, setOutput]
      by_cases hany : ms.any isOutputConfig = true
      · rw [if_pos hany]
        exact any_replaceFirstOutput p ms h
      · rw [if_neg hany]
        rw [List.any_append, h]
        simp
  | datasource ms => simp [isClientGenerator] at h
  | otherDecl => simp [isClientGenerator] at h

theorem find?_replaceFirstOutput (p : String) :
    ∀ ms : List BlockMember, ms.any isOutputConfig = true →
      (replaceFirstOutput p ms).find? isOutputConfig =
        some (BlockMember.config "output" (SchemaExpr.literal (LiteralValue.str p))) := by
  intro ms
  induction ms with
  | nil => intro h; simp at h
  | cons m rest ih =>
      intro h
      rw [replaceFirstOutput]
      by_cases hq : isOutputConfig m = true
      · rw [if_pos hq]
        rw [List.find?_cons_of_pos]
        rfl
      · rw [if_neg hq]
        rw [List.any_cons] at h
        rcases Bool.or_eq_true_iff.mp h with hm | hrest
        · exact absurd hm hq
        · rw [List.find?_cons_of_neg _ hq]
          exact ih hrest

theorem find?_setOutput (p : String) (ms : List BlockMember) :
    (setOutput ms p).find? isOutputConfig =
      some (BlockMember.config "output" (SchemaExpr.literal (LiteralValue.str p))) := by
  rw [setOutput]
  by_cases hany : ms.any isOutputConfig = true
  · rw [if_pos hany]
    exact find?_replaceFirstOutput p ms hany
  · rw [if_neg hany]
    rw [List.find?_append]
    have hnone : ms.find? isOutputConfig = none := by
      rw [List.find?_eq_none]
      intro x hx hpx
      exact hany (List.any_eq_true.mpr ⟨x, hx, hpx⟩)
    rw [hnone]
    have hpos : isOutputConfig
        (BlockMember.config "output" (SchemaExpr.literal (LiteralValue.str p))) = true := rfl
    rw [List.find?_cons_of_pos _ hpos]
    rfl

theorem firstOutputValue_updateDeclOutput (p : String) (d : Declaration)
    (h : isClientGenerator d = true) :
    firstOutputValue (updateDeclOutput p d) =
      some (SchemaExpr.literal (LiteralValue.str p)) := by
  cases d with
  | generator ms =>
      rw [updateDeclOutput, firstOutputValue, find?_setOutput p ms]
  | datasource ms => simp [isClientGenerator] at h
  | otherDecl => simp [isClientGenerator] at h

theorem find?_replaceFirstClientGenerator (p : String) :
    ∀ l : List Declaration, l.any isClientGenerator = true →
      ∃ d, (replaceFirstClientGenerator p l).find? isClientGenerator =
            some (updateDeclOutput p d) ∧ isClientGenerator d = true := by
  intro l
  induction l with
  | nil => intro h; simp at h
  | cons d ds ih =>
      intro h
      rw [replaceFirstClientGenerator]
      by_cases hd : isClientGenerator d = true
      · rw [if_pos hd]
        refine ⟨d, ?_, hd⟩
        rw [List.find?_cons_of_pos _ (isClientGenerator_updateDeclOutput p d hd)]
      · rw [if_neg hd]
        rw [List.any_cons] at h
        rcases Bool.or_eq_true_iff.mp h with hm | hrest
        · exact absurd hm hd
        · obtain ⟨d2, hfind, hd2⟩ := ih hrest
          refine ⟨d2, ?_, hd2⟩
          rw [List.find?_cons_of_neg _ hd]
          exact hfind

/-- C5: `updateGenerator` fails with the block-count error whenever the number
of client generator blocks differs from one, and with exactly one such block it
succeeds and the rewritten schema's client generator carries an `output`
config whose value is the supplied path verbatim (updating an existing
`output` field or appending a new one). -/
theorem C5_generator_block_rewrite (ast : PrismaSchema) (p : String) :
    ((ast.declarations.filter isClientGenerator).length = 1 →
      ∃ r, updateGenerator ast p = Except.ok r ∧
        clientGeneratorOutput r = some (SchemaExpr.literal (LiteralValue.str p))) ∧
    ((ast.declarations.filter isClientGenerator).length ≠ 1 →
      updateGenerator ast p = Except.error GenError.generatorBlockCount) := by
  constructor
  · intro hlen
    have hne : ast.declarations.filter isClientGenerator ≠ [] := by
      intro hh
      rw [hh] at hlen
      simp at hlen
    have hany : ast.declarations.any isClientGenerator = true := by
      obtain ⟨d, hd⟩ := List.exists_mem_of_ne_nil _ hne
      obtain ⟨hdl, hdp⟩ := List.mem_filter.mp hd
      exact List.any_eq_true.mpr ⟨d, hdl, hdp⟩
    refine ⟨⟨replaceFirstClientGenerator p ast.declarations⟩, ?_, ?_⟩
    · rw [updateGenerator]
      rw [if_neg (by rw [hlen]; intro hh; exact hh rfl)]
    · obtain ⟨d, hfind, hd⟩ := find?_replaceFirstClientGenerator p ast.declarations hany
      rw [clientGeneratorOutput]
      simp only []
      rw [hfind]
      simp only []
      exact firstOutputValue_updateDeclOutput p d hd
  · intro hlen
    rw [updateGenerator]
    rw [if_pos hlen]

/-- Closed witness for C5: a one-generator schema succeeds with the verbatim
output path and a two-generator schema fails with the count error. -/
theorem C5_generator_block_rewrite_witness :
    (∃ r, updateGenerator astOneGenerator "../client/001_init" = Except.ok r ∧
      clientGeneratorOutput r =
        some (SchemaExpr.literal (LiteralValue.str "../client/001_init"))) ∧
    updateGenerator astTwoGenerators "../client/001_init" =
      Except.error GenError.generatorBlockCount :=
  ⟨(C5_generator_block_rewrite astOneGenerator "../client/001_init").1 (by decide),
   (C5_generator_block_rewrite astTwoGenerators "../client/001_init").2 (by decide)⟩
